import Mathlib

/-!
Verification of the Qoder reset tool (`qoder_reset_gui.py`).

The tool mutates files under the application's per-user data directory:
it rewrites the `machineid` file and the telemetry keys of
`User/globalStorage/storage.json`, and removes fixed lists of cache,
identity, and storage paths ("cleanup profiles").  We shallowly embed the
file system as an association list from paths (lists of name components)
to nodes (directory, plain-text file, or a parsed JSON object whose
values are kept as opaque serialized strings), and translate each
operation of the source into a pure function on that state.  Randomness
(the freshly drawn UUIDs) and removal failures (permission errors) are
passed as explicit parameters, and user prompts / process probes of the
GUI layer are booleans fed to the handler functions.
-/

set_option maxRecDepth 4000

/-- A path below the Qoder data directory, as a list of name components.
The data directory itself is `[]`. -/
abbrev FPath := List String

/-- A file-system node: a directory, a plain-text file, or a file that
parses as a JSON object (values kept as opaque serialized strings). -/
inductive Node where
  | dir : Node
  | text : String → Node
  | json : List (String × String) → Node
deriving DecidableEq, Repr

/-- The state of the Qoder data directory: the list of existing entries. -/
structure FS where
  entries : List (FPath × Node)
deriving DecidableEq, Repr

/-- `os.path.exists` / `Path.exists`: some entry has exactly this path. -/
def FS.hasPath (fs : FS) (p : FPath) : Bool :=
  fs.entries.any (fun ent => ent.1 == p)

/-- Reading a path: the first entry with this path, if any. -/
def FS.find (fs : FS) (p : FPath) : Option Node :=
  (fs.entries.find? (fun ent => ent.1 == p)).map (fun ent => ent.2)

/-- `open(p, "w")` followed by a full write: replaces any entry at `p`. -/
def FS.write (fs : FS) (p : FPath) (nd : Node) : FS :=
  ⟨(p, nd) :: fs.entries.filter (fun ent => !(ent.1 == p))⟩

/-- `Path.unlink`: removes the entry at exactly this path. -/
def FS.unlink (fs : FS) (p : FPath) : FS :=
  ⟨fs.entries.filter (fun ent => !(ent.1 == p))⟩

/-- `shutil.rmtree`: removes the entry at this path and everything below it. -/
def FS.rmtree (fs : FS) (p : FPath) : FS :=
  ⟨fs.entries.filter (fun ent => !(List.isPrefixOf p ent.1))⟩

/-- Whether a cleanup entry is removed with `unlink` (single file) or
`shutil.rmtree` (directory), per the source's loops. -/
inductive EntryKind where
  | file : EntryKind
  | dir : EntryKind
deriving DecidableEq, Repr

/-- One entry of a cleanup profile: a path and how it is removed. -/
structure ProfileEntry where
  path : FPath
  kind : EntryKind
deriving DecidableEq, Repr

/-- Removal of one profile entry, per its kind. -/
def removeEntry (fs : FS) (e : ProfileEntry) : FS :=
  match e.kind with
  | EntryKind.file => fs.unlink e.path
  | EntryKind.dir => fs.rmtree e.path

/-- The best-effort removal loop of the source (`if path.exists(): try
remove except: record`): returns the final state, how many entries were
actually removed, and the paths whose removal failed.  `fails` is the
environment's removal-failure oracle (permission denied, file in use). -/
def applyProfile (fails : FPath → Bool) (fs : FS) :
    List ProfileEntry → FS × Nat × List FPath
  | [] => (fs, 0, [])
  | e :: rest =>
    if fs.hasPath e.path then
      if fails e.path then
        let r := applyProfile fails fs rest
        (r.1, r.2.1, e.path :: r.2.2)
      else
        let r := applyProfile fails (removeEntry fs e) rest
        (r.1, r.2.1 + 1, r.2.2)
    else
      applyProfile fails fs rest

/-- The machine-ID file. -/
def machineidPath : FPath := ["machineid"]

/-- The telemetry JSON file. -/
def storagePath : FPath := ["User", "globalStorage", "storage.json"]

/-- The `Network` subdirectory. -/
def networkDirPath : FPath := ["Network"]

/-- Cache directories removed by step 3 of the full reset. -/
def cacheProfile : List ProfileEntry :=
  [⟨["Cache"], EntryKind.dir⟩, ⟨["blob_storage"], EntryKind.dir⟩,
   ⟨["Code Cache"], EntryKind.dir⟩, ⟨["SharedClientCache"], EntryKind.dir⟩,
   ⟨["GPUCache"], EntryKind.dir⟩, ⟨["DawnGraphiteCache"], EntryKind.dir⟩,
   ⟨["DawnWebGPUCache"], EntryKind.dir⟩]

/-- Root-level identity files removed by step 4 of the full reset. -/
def identityFilesProfile : List ProfileEntry :=
  [⟨["Network Persistent State"], EntryKind.file⟩,
   ⟨["Cookies"], EntryKind.file⟩, ⟨["Cookies-journal"], EntryKind.file⟩,
   ⟨["SharedStorage"], EntryKind.file⟩, ⟨["SharedStorage-wal"], EntryKind.file⟩,
   ⟨["Trust Tokens"], EntryKind.file⟩, ⟨["Trust Tokens-journal"], EntryKind.file⟩,
   ⟨["TransportSecurity"], EntryKind.file⟩,
   ⟨["Preferences"], EntryKind.file⟩,
   ⟨["Local State"], EntryKind.file⟩,
   ⟨["NetworkDataMigrated"], EntryKind.file⟩]

/-- Files under `Network/` removed by step 4 of the full reset. -/
def networkFilesProfile : List ProfileEntry :=
  [⟨["Network", "Cookies"], EntryKind.file⟩,
   ⟨["Network", "Cookies-journal"], EntryKind.file⟩,
   ⟨["Network", "Network Persistent State"], EntryKind.file⟩,
   ⟨["Network", "NetworkDataMigrated"], EntryKind.file⟩,
   ⟨["Network", "TransportSecurity"], EntryKind.file⟩,
   ⟨["Network", "Trust Tokens"], EntryKind.file⟩,
   ⟨["Network", "Trust Tokens-journal"], EntryKind.file⟩]

/-- Storage directories removed by step 5 of the full reset. -/
def storageProfile : List ProfileEntry :=
  [⟨["Local Storage"], EntryKind.dir⟩, ⟨["Session Storage"], EntryKind.dir⟩,
   ⟨["WebStorage"], EntryKind.dir⟩, ⟨["Shared Dictionary"], EntryKind.dir⟩,
   ⟨["Service Worker"], EntryKind.dir⟩, ⟨["clp"], EntryKind.dir⟩,
   ⟨["logs"], EntryKind.dir⟩, ⟨["Backups"], EntryKind.dir⟩,
   ⟨["CachedExtensionVSIXs"], EntryKind.dir⟩]

/-- Files inside `SharedClientCache` removed by the advanced cleanup. -/
def advancedSharedProfile : List ProfileEntry :=
  [⟨["SharedClientCache", ".info"], EntryKind.file⟩,
   ⟨["SharedClientCache", ".lock"], EntryKind.file⟩,
   ⟨["SharedClientCache", "mcp.json"], EntryKind.file⟩,
   ⟨["SharedClientCache", "index"], EntryKind.dir⟩,
   ⟨["SharedClientCache", "cache"], EntryKind.dir⟩]

/-- System-level files and cache/crash directories removed by the
advanced cleanup. -/
def advancedSystemProfile : List ProfileEntry :=
  [⟨["code.lock"], EntryKind.file⟩,
   ⟨["languagepacks.json"], EntryKind.file⟩,
   ⟨["Crashpad"], EntryKind.dir⟩,
   ⟨["CachedData"], EntryKind.dir⟩,
   ⟨["CachedProfilesData"], EntryKind.dir⟩]

/-- The glob `*.sock` of the advanced cleanup: root-level entries whose
name ends in `.sock`, resolved against the current listing. -/
def sockFiles (fs : FS) : List FPath :=
  (fs.entries.map (fun ent => ent.1)).filter
    (fun p => match p with
      | [n] => n.endsWith ".sock"
      | _ => false)

/-- `perform_advanced_identity_cleanup`: SharedClientCache internals
(only when that directory exists), system-level files, crash/cache
directories, then the `*.sock` glob. -/
def performAdvancedCleanup (fails : FPath → Bool) (fs : FS) : FS × Nat × List FPath :=
  let r1 := if fs.hasPath ["SharedClientCache"] then
      applyProfile fails fs advancedSharedProfile
    else (fs, 0, [])
  let r2 := applyProfile fails r1.1 advancedSystemProfile
  let r3 := applyProfile fails r2.1 ((sockFiles r2.1).map (fun p => ⟨p, EntryKind.file⟩))
  (r3.1, r1.2.1 + r2.2.1 + r3.2.1, r1.2.2 ++ r2.2.2 ++ r3.2.2)

/-- Substring search over character lists (Python's `in` on strings). -/
def hasSubstr : List Char → List Char → Bool
  | [], pat => pat.isEmpty
  | c :: rest, pat => List.isPrefixOf pat (c :: rest) || hasSubstr rest pat

/-- Python's `pat in s` for strings. -/
def strContains (s pat : String) : Bool :=
  hasSubstr s.data pat.data

/-- The lowercase hexadecimal digits. -/
def hexDigits : List Char :=
  "0123456789abcdef".data

/-- The `n`-th lowercase hexadecimal digit. -/
def hexDigit (n : Nat) : Char :=
  hexDigits.getD n 'x'

/-- Whether a character is a lowercase hexadecimal digit. -/
def isHexLower (c : Char) : Bool :=
  hexDigits.contains c

/-- A byte rendered as two lowercase hexadecimal characters. -/
def byteHex (b : Nat) : List Char :=
  [hexDigit (b / 16), hexDigit (b % 16)]

/-- Bytes rendered as a run of lowercase hexadecimal characters. -/
def hexOfBytes (bs : List Nat) : List Char :=
  (bs.map byteHex).flatten

/-- Well-formedness of the sixteen bytes of a version-4 UUID: the right
length, byte-sized values, version nibble 4 and variant bits `10`. -/
def uuidWF (bs : List Nat) : Bool :=
  bs.length == 16 && bs.all (fun b => b < 256) &&
  bs.getD 6 0 / 16 == 4 && bs.getD 8 0 / 64 == 2

/-- A version-4 UUID value, as drawn by `uuid.uuid4()`. -/
structure UUIDv4 where
  bytes : List Nat
  wf : uuidWF bytes = true
deriving DecidableEq

/-- `str(uuid)`: the canonical 8-4-4-4-12 lowercase textual form. -/
def uuidCanon (u : UUIDv4) : String :=
  let bs := u.bytes
  String.mk (hexOfBytes (bs.take 4) ++ '-' ::
    (hexOfBytes ((bs.drop 4).take 2) ++ '-' ::
      (hexOfBytes ((bs.drop 6).take 2) ++ '-' ::
        (hexOfBytes ((bs.drop 8).take 2) ++ '-' :: hexOfBytes (bs.drop 10)))))

/-- Splitting a character list on `'-'`. -/
def splitOnDash : List Char → List (List Char)
  | [] => [[]]
  | c :: rest =>
    if c == '-' then [] :: splitOnDash rest
    else
      match splitOnDash rest with
      | [] => [[c]]
      | g :: gs => (c :: g) :: gs

/-- Syntactic validity of a UUID string: five dash-separated groups of
lowercase hexadecimal digits with lengths 8, 4, 4, 4, 12. -/
def isValidUUIDString (s : String) : Bool :=
  match splitOnDash s.data with
  | [a, b, c, d, e] =>
    a.length == 8 && b.length == 4 && c.length == 4 && d.length == 4 &&
    e.length == 12 && (a ++ b ++ c ++ d ++ e).all isHexLower
  | _ => false

/-- Truncation to 32 bits. -/
def w32 (n : Nat) : Nat := n % 4294967296

/-- 32-bit right rotation. -/
def rotr32 (x n : Nat) : Nat :=
  w32 (x / 2 ^ n + x % 2 ^ n * 2 ^ (32 - n))

/-- SHA-256 `Ch`. -/
def shaCh (e f g : Nat) : Nat :=
  Nat.xor (Nat.land e f) (Nat.land (Nat.xor e 4294967295) g)

/-- SHA-256 `Maj`. -/
def shaMaj (a b c : Nat) : Nat :=
  Nat.xor (Nat.xor (Nat.land a b) (Nat.land a c)) (Nat.land b c)

/-- SHA-256 big Sigma 0. -/
def bSig0 (a : Nat) : Nat :=
  Nat.xor (Nat.xor (rotr32 a 2) (rotr32 a 13)) (rotr32 a 22)

/-- SHA-256 big Sigma 1. -/
def bSig1 (e : Nat) : Nat :=
  Nat.xor (Nat.xor (rotr32 e 6) (rotr32 e 11)) (rotr32 e 25)

/-- SHA-256 small sigma 0. -/
def sSig0 (x : Nat) : Nat :=
  Nat.xor (Nat.xor (rotr32 x 7) (rotr32 x 18)) (x / 2 ^ 3)

/-- SHA-256 small sigma 1. -/
def sSig1 (x : Nat) : Nat :=
  Nat.xor (Nat.xor (rotr32 x 17) (rotr32 x 19)) (x / 2 ^ 10)

/-- The SHA-256 round constants. -/
def K256 : List Nat :=
  [1116352408, 1899447441, 3049323471, 3921009573, 961987163, 1508970993,
   2453635748, 2870763221, 3624381080, 310598401, 607225278, 1426881987,
   1925078388, 2162078206, 2614888103, 3248222580, 3835390401, 4022224774,
   264347078, 604807628, 770255983, 1249150122, 1555081692, 1996064986,
   2554220882, 2821834349, 2952996808, 3210313671, 3336571891, 3584528711,
   113926993, 338241895, 666307205, 773529912, 1294757372, 1396182291,
   1695183700, 1986661051, 2177026350, 2456956037, 2730485921, 2820302411,
   3259730800, 3345764771, 3516065817, 3600352804, 4094571909, 275423344,
   430227734, 506948616, 659060556, 883997877, 958139571, 1322822218,
   1537002063, 1747873779, 1955562222, 2024104815, 2227730452, 2361852424,
   2428436474, 2756734187, 3204031479, 3329325298]

/-- The SHA-256 initial hash values. -/
def sha256H0 : List Nat :=
  [1779033703, 3144134277, 1013904242, 2773480762, 1359893119, 2600822924,
   528734635, 1541459225]

/-- One message-schedule extension step: appends the next word. -/
def stepW (ws : List Nat) : List Nat :=
  let n := ws.length
  ws ++ [w32 (sSig1 (ws.getD (n - 2) 0) + ws.getD (n - 7) 0 +
    sSig0 (ws.getD (n - 15) 0) + ws.getD (n - 16) 0)]

/-- The full 64-word message schedule of one block. -/
def schedule (ws : List Nat) : List Nat :=
  (List.range 48).foldl (fun acc _ => stepW acc) ws

/-- One SHA-256 compression round on the eight working variables. -/
def compressStep (st : List Nat) (kw : Nat × Nat) : List Nat :=
  match st with
  | [a, b, c, d, e, f, g, h] =>
    let t1 := w32 (h + bSig1 e + shaCh e f g + kw.1 + kw.2)
    let t2 := w32 (bSig0 a + shaMaj a b c)
    [w32 (t1 + t2), a, b, c, w32 (d + t1), e, f, g]
  | _ => st

/-- Compression of one 16-word block into the running hash values. -/
def compressBlock (hs : List Nat) (block : List Nat) : List Nat :=
  let st := (List.zip K256 (schedule block)).foldl compressStep hs
  List.zipWith (fun x y => w32 (x + y)) hs st

/-- Iterating the compression over the blocks of the padded message. -/
def sha256Go : Nat → List Nat → List Nat → List Nat
  | 0, _, hs => hs
  | n + 1, ws, hs => sha256Go n (ws.drop 16) (compressBlock hs (ws.take 16))

/-- Big-endian rendering of `n` into `k` bytes. -/
def beBytes : Nat → Nat → List Nat
  | 0, _ => []
  | k + 1, n => beBytes k (n / 256) ++ [n % 256]

/-- SHA-256 message padding: `0x80`, zeros to 56 mod 64, then the
bit length in eight big-endian bytes. -/
def padMsg (msg : List Nat) : List Nat :=
  let len := msg.length
  let z := (120 - (len + 1) % 64) % 64
  msg ++ 128 :: List.replicate z 0 ++ beBytes 8 (len * 8)

/-- Bytes to 32-bit big-endian words. -/
def toWords : List Nat → List Nat
  | b0 :: b1 :: b2 :: b3 :: rest =>
    (((b0 * 256 + b1) * 256 + b2) * 256 + b3) :: toWords rest
  | _ => []

/-- The SHA-256 digest of a byte string, as 32 bytes. -/
def sha256Bytes (msg : List Nat) : List Nat :=
  let ws := toWords (padMsg msg)
  ((sha256Go (ws.length / 16) ws sha256H0).map (beBytes 4)).flatten

/-- `hashlib.sha256(...).hexdigest()`: the digest as lowercase hex. -/
def sha256Hex (msg : List Nat) : String :=
  String.mk (hexOfBytes (sha256Bytes msg))

/-- `s.encode()` for the ASCII strings used here: code points as bytes. -/
def strBytes (s : String) : List Nat :=
  s.data.map Char.toNat

/-- `hashlib.sha256(str(uuid.uuid4()).encode()).hexdigest()`: the
machine-ID hash written into `telemetry.machineId`. -/
def generateMachineIdHash (u : UUIDv4) : String :=
  sha256Hex (strBytes (uuidCanon u))

/-- `str(uuid.uuid4())`: the device id written into
`telemetry.devDeviceId`. -/
def generate_device_id (u : UUIDv4) : String :=
  uuidCanon u

/-- Python `dict[k] = v` on a JSON object: overwrite the first entry
with this key, or append a fresh one. -/
def setKey : List (String × String) → String → String → List (String × String)
  | [], k, v => [(k, v)]
  | kv :: rest, k, v =>
    if kv.1 == k then (k, v) :: rest else kv :: setKey rest k v

/-- First value stored under a key of a JSON object. -/
def lookupKey : List (String × String) → String → Option String
  | [], _ => none
  | kv :: rest, k => if kv.1 == k then some kv.2 else lookupKey rest k

/-- The two assignments of `reset_telemetry` / step 2 of the full reset:
`data['telemetry.machineId'] = hash; data['telemetry.devDeviceId'] = dev`. -/
def setTelemetryKeys (obj : List (String × String)) (hashv dev : String) :
    List (String × String) :=
  setKey (setKey obj "telemetry.machineId" hashv) "telemetry.devDeviceId" dev

/-- Outcome of the standalone machine-ID reset as surfaced to the user. -/
inductive ResetMachineIdOutcome where
  | stillRunning : ResetMachineIdOutcome
  | noDataDir : ResetMachineIdOutcome
  | noMachineIdFile : ResetMachineIdOutcome
  | success : ResetMachineIdOutcome
deriving DecidableEq, Repr

/-- `reset_machine_id`: abort if Qoder is running; error if the data
directory is absent; warn if the `machineid` file is absent; otherwise
overwrite the file with the fresh UUID's text. -/
def reset_machine_id (running : Bool) (u : UUIDv4) (fs : FS) :
    ResetMachineIdOutcome × FS :=
  if running then (ResetMachineIdOutcome.stillRunning, fs)
  else if !(fs.hasPath []) then (ResetMachineIdOutcome.noDataDir, fs)
  else if fs.hasPath machineidPath then
    (ResetMachineIdOutcome.success,
      fs.write machineidPath (Node.text (uuidCanon u)))
  else (ResetMachineIdOutcome.noMachineIdFile, fs)

/-- Outcome of the standalone telemetry reset as surfaced to the user. -/
inductive TelemetryOutcome where
  | stillRunning : TelemetryOutcome
  | noStorageFile : TelemetryOutcome
  | readError : TelemetryOutcome
  | success : TelemetryOutcome
deriving DecidableEq, Repr

/-- `reset_telemetry`: abort if Qoder is running; error if
`storage.json` is absent or does not load as a JSON object; otherwise
set the two telemetry keys and write the object back. -/
def reset_telemetry (running : Bool) (u1 u2 : UUIDv4) (fs : FS) :
    TelemetryOutcome × FS :=
  if running then (TelemetryOutcome.stillRunning, fs)
  else if !(fs.hasPath storagePath) then (TelemetryOutcome.noStorageFile, fs)
  else
    match fs.find storagePath with
    | some (Node.json obj) =>
      (TelemetryOutcome.success,
        fs.write storagePath
          (Node.json (setTelemetryKeys obj (generateMachineIdHash u1) (uuidCanon u2))))
    | _ => (TelemetryOutcome.readError, fs)

/-- The chat-key predicate of `clear_chat_history`: the key's lowercase
form contains `chat`, `conversation`, `history` or `session`. -/
def chatKeyB (k : String) : Bool :=
  strContains k.toLower "chat" || strContains k.toLower "conversation" ||
  strContains k.toLower "history" || strContains k.toLower "session"

/-- Python `del data[k]` on the association-list object. -/
def delKey (obj : List (String × String)) (k : String) :
    List (String × String) :=
  obj.filter (fun kv => !(kv.1 == k))

/-- Immediate subdirectories of a path (`Path.iterdir` + `is_dir`). -/
def childDirs (fs : FS) (p : FPath) : List String :=
  (fs.entries.filter (fun ent =>
      (match ent.2 with | Node.dir => true | _ => false) &&
      ent.1.length == p.length + 1 && List.isPrefixOf p ent.1)).map
    (fun ent => ent.1.getLastD "")

/-- The per-workspace `chatSessions` / `chatEditingSessions` removals of
`clear_chat_history`, as a profile computed from the current listing. -/
def chatWorkspaceProfile (fs : FS) : List ProfileEntry :=
  ((childDirs fs ["User", "workspaceStorage"]).map (fun w =>
    [(⟨["User", "workspaceStorage", w, "chatSessions"], EntryKind.dir⟩ : ProfileEntry),
     ⟨["User", "workspaceStorage", w, "chatEditingSessions"], EntryKind.dir⟩])).flatten

/-- Part 4 of `clear_chat_history`: strip the chat-related keys out of
`storage.json`; read or parse failures are caught and skipped, and the
file is rewritten only when at least one key matched. -/
def clearChatStorageStep (fs : FS) : FS :=
  if fs.hasPath storagePath then
    match fs.find storagePath with
    | some (Node.json obj) =>
      let chatKeys := (obj.map Prod.fst).filter chatKeyB
      if chatKeys.isEmpty then fs
      else fs.write storagePath (Node.json (chatKeys.foldl delKey obj))
    | _ => fs
  else fs

/-- `clear_chat_history`: per-workspace chat-session directories, the
global `User/History` directory, `Session Storage`, then the
chat-related keys of `storage.json`. -/
def clear_chat_history (fails : FPath → Bool) (fs : FS) : FS :=
  let fs1 := if fs.hasPath ["User", "workspaceStorage"] then
      (applyProfile fails fs (chatWorkspaceProfile fs)).1
    else fs
  let fs2 := (applyProfile fails fs1 [⟨["User", "History"], EntryKind.dir⟩]).1
  let fs3 := (applyProfile fails fs2 [⟨["Session Storage"], EntryKind.dir⟩]).1
  clearChatStorageStep fs3

/-- Failures that terminate `perform_full_reset`. -/
inductive PyErr where
  | noDataDir : PyErr
  | parseError : PyErr
deriving DecidableEq, Repr

/-- `perform_full_reset(preserve_chat)`, translated statement by
statement.  `u1` is the machine-ID UUID, `u2` the UUID hashed into the
telemetry machine id, `u3` the device id.  A missing data directory
raises before any step; a `storage.json` that exists but does not load
as a JSON object raises out of step 2. -/
def performFullReset (u1 u2 u3 : UUIDv4) (fails : FPath → Bool)
    (preserveChat : Bool) (fs : FS) : Except PyErr FS :=
  if !(fs.hasPath []) then Except.error PyErr.noDataDir
  else
    let fs1 := if fs.hasPath machineidPath then
        fs.write machineidPath (Node.text (uuidCanon u1))
      else fs
    match (if fs1.hasPath storagePath then
        match fs1.find storagePath with
        | some (Node.json obj) =>
          Except.ok (fs1.write storagePath
            (Node.json (setTelemetryKeys obj (generateMachineIdHash u2) (uuidCanon u3))))
        | _ => Except.error PyErr.parseError
      else Except.ok fs1 : Except PyErr FS) with
    | Except.error e => Except.error e
    | Except.ok fs2 =>
      let fs3 := (applyProfile fails fs2 cacheProfile).1
      let fs4 := (applyProfile fails fs3 identityFilesProfile).1
      let fs5 := if fs4.hasPath networkDirPath then
          (applyProfile fails fs4 networkFilesProfile).1
        else fs4
      let fs6 := (applyProfile fails fs5 storageProfile).1
      let fs7 := (performAdvancedCleanup fails fs6).1
      if preserveChat then Except.ok fs7
      else Except.ok (clear_chat_history fails fs7)

/-- The named steps of the full reset, in the order of the claim. -/
inductive Step where
  | machineId : Step
  | telemetry : Step
  | cacheClean : Step
  | identityClean : Step
  | storageClean : Step
  | deepClean : Step
  | chatPurge : Step
deriving DecidableEq, Repr

/-- Specification-side meaning of one full-reset step.  `identityClean`
covers both the root-level identity files and the `Network`
subdirectory's files, as in the source's step 4. -/
def runStep (u1 u2 u3 : UUIDv4) (fails : FPath → Bool) (s : Step) (fs : FS) :
    Except PyErr FS :=
  match s with
  | Step.machineId =>
    Except.ok (if fs.hasPath machineidPath then
      fs.write machineidPath (Node.text (uuidCanon u1)) else fs)
  | Step.telemetry =>
    if fs.hasPath storagePath then
      match fs.find storagePath with
      | some (Node.json obj) =>
        Except.ok (fs.write storagePath
          (Node.json (setTelemetryKeys obj (generateMachineIdHash u2) (uuidCanon u3))))
      | _ => Except.error PyErr.parseError
    else Except.ok fs
  | Step.cacheClean => Except.ok (applyProfile fails fs cacheProfile).1
  | Step.identityClean =>
    let a := (applyProfile fails fs identityFilesProfile).1
    Except.ok (if a.hasPath networkDirPath then
      (applyProfile fails a networkFilesProfile).1 else a)
  | Step.storageClean => Except.ok (applyProfile fails fs storageProfile).1
  | Step.deepClean => Except.ok (performAdvancedCleanup fails fs).1
  | Step.chatPurge => Except.ok (clear_chat_history fails fs)

/-- Sequential composition of full-reset steps. -/
def runSteps (u1 u2 u3 : UUIDv4) (fails : FPath → Bool) :
    List Step → FS → Except PyErr FS
  | [], fs => Except.ok fs
  | s :: rest, fs =>
    match runStep u1 u2 u3 fails s fs with
    | Except.ok fs' => runSteps u1 u2 u3 fails rest fs'
    | Except.error e => Except.error e

/-- The full-reset step sequence: the chat purge runs only when chat is
not preserved. -/
def fullResetSteps (preserveChat : Bool) : List Step :=
  [Step.machineId, Step.telemetry, Step.cacheClean, Step.identityClean,
   Step.storageClean, Step.deepClean] ++
  (if preserveChat then [] else [Step.chatPurge])

/-- Whether `storage.json` would load: it is absent, or it parses as a
JSON object. -/
def storageParses (fs : FS) : Bool :=
  match fs.find storagePath with
  | some (Node.text _) => false
  | some Node.dir => false
  | _ => true

/-- The prompt/recheck gate of `one_click_reset`: with Qoder detected
running, the user must confirm past the close prompt (`c1`) and the
recheck must report not running (`r2`); then the operation-confirmation
prompt (`c2`) decides.  Without Qoder running, only `c2` decides. -/
def oneClickProceeds (r1 c1 r2 c2 : Bool) : Bool :=
  if r1 then (if !c1 then false else if r2 then false else c2) else c2

/-- The identical prompt/recheck gate of `deep_identity_cleanup`. -/
def deepCleanProceeds (r1 c1 r2 c2 : Bool) : Bool :=
  if r1 then (if !c1 then false else if r2 then false else c2) else c2

/-- The `one_click_reset` handler: past the gate it runs the full reset;
a raised error is caught and leaves the state as the reset left it
untouched at the point of failure (the only pre-mutation failure is the
missing data directory, where nothing was touched). -/
def one_click_reset (r1 c1 r2 c2 preserveChat : Bool) (u1 u2 u3 : UUIDv4)
    (fails : FPath → Bool) (fs : FS) : FS :=
  if oneClickProceeds r1 c1 r2 c2 then
    match performFullReset u1 u2 u3 fails preserveChat fs with
    | Except.ok fs' => fs'
    | Except.error PyErr.noDataDir => fs
    | Except.error PyErr.parseError =>
      (if fs.hasPath machineidPath then
        fs.write machineidPath (Node.text (uuidCanon u1)) else fs)
  else fs

/-- The `deep_identity_cleanup` handler: past the gate, a missing data
directory raises (caught, no mutation); otherwise the advanced cleanup
runs. -/
def deep_identity_cleanup (r1 c1 r2 c2 : Bool) (fails : FPath → Bool)
    (fs : FS) : FS :=
  if deepCleanProceeds r1 c1 r2 c2 then
    if fs.hasPath [] then (performAdvancedCleanup fails fs).1 else fs
  else fs

/-- The host operating system as reported by `platform.system()`. -/
inductive OSys where
  | darwin : OSys
  | linux : OSys
  | windows : OSys
  | other : OSys
deriving DecidableEq, Repr

/-- The observable result of a `subprocess.run` invocation. -/
structure SubprocResult where
  returncode : Int
  stdout : String
deriving DecidableEq, Repr

/-- One process yielded by `psutil.process_iter(['pid', 'name'])`: the
requested attributes are prefetched into `info`, and psutil's default
`ad_value = None` stores `None` as the name when its retrieval hit
`AccessDenied` or a zombie process, so the access `proc.info['name']`
itself never raises `NoSuchProcess`/`AccessDenied`. -/
structure ProcInfo where
  pid : Nat
  pname : Option String
deriving DecidableEq, Repr

/-- Python `str.strip()` (whitespace). -/
def pystrip (s : String) : String := s.trim

/-- Python `str.split()` (runs of whitespace, empties dropped). -/
def pysplitWs (s : String) : List String :=
  (s.split Char.isWhitespace).filter (fun t => !(t == ""))

/-- The PID-column parse of the Windows `tasklist` output: lines
containing the name case-insensitively, second whitespace-separated
field. -/
def winParsePids (pname : String) (out : String) : List String :=
  (((pystrip out).splitOn "\n").filter
      (fun line => strContains line.toLower pname.toLower)).foldl
    (fun acc line =>
      let parts := pysplitWs line
      if parts.length ≥ 2 then acc ++ [parts.getD 1 ""] else acc) []

/-- The matching loop of the `psutil` fallback.  A prefetched name of
`None` makes `proc.info['name'].lower()` raise an `AttributeError`,
which neither the per-process `NoSuchProcess`/`AccessDenied` clause nor
the surrounding `ImportError` clause catches, so it escapes the loop
(and the whole probe). -/
def psMatchLoop (pname : String) : List ProcInfo → List String →
    Except Unit (List String)
  | [], acc => Except.ok acc
  | p :: rest, acc =>
    match p.pname with
    | none => Except.error ()
    | some nm =>
      if strContains nm.toLower pname.toLower then
        psMatchLoop pname rest (acc ++ [toString p.pid])
      else psMatchLoop pname rest acc

/-- The `psutil` fallback of `check_process_running`: `none` models an
`ImportError` (caught, falls through to `(false, [])`); matching is a
case-insensitive substring test on the prefetched process names, and an
`AttributeError` raised inside the loop propagates. -/
def psFallback (pname : String) : Option (List ProcInfo) →
    Except Unit (Bool × List String)
  | none => Except.ok (false, [])
  | some procs =>
    match psMatchLoop pname procs [] with
    | Except.error e => Except.error e
    | Except.ok pids =>
      if !(pids == []) then Except.ok (true, pids)
      else Except.ok (false, [])

/-- `check_process_running`: OS-native probe (`pgrep -f` on POSIX,
`tasklist` on Windows), with any exception from the native attempt
(`native = none`) diverted to the `psutil` fallback; a native run that
yields nothing returns `(false, [])` directly. -/
def check_process_running (os : OSys) (pname : String)
    (native : Option SubprocResult) (psutilProcs : Option (List ProcInfo)) :
    Except Unit (Bool × List String) :=
  match os, native with
  | OSys.darwin, some r =>
    if r.returncode == 0 then
      Except.ok (true, ((pystrip r.stdout).splitOn "\n"))
    else Except.ok (false, [])
  | OSys.linux, some r =>
    if r.returncode == 0 then
      Except.ok (true, ((pystrip r.stdout).splitOn "\n"))
    else Except.ok (false, [])
  | OSys.windows, some r =>
    if r.returncode == 0 && strContains r.stdout.toLower pname.toLower then
      Except.ok (true, winParsePids pname r.stdout)
    else Except.ok (false, [])
  | OSys.other, _ => Except.ok (false, [])
  | _, none => psFallback pname psutilProcs

/-- Whether the native probe was unavailable, failed, or yielded
nothing. -/
def nativeNothing (os : OSys) (pname : String)
    (native : Option SubprocResult) : Bool :=
  match os, native with
  | _, none => true
  | OSys.darwin, some r => !(r.returncode == 0)
  | OSys.linux, some r => !(r.returncode == 0)
  | OSys.windows, some r =>
    !(r.returncode == 0 && strContains r.stdout.toLower pname.toLower)
  | OSys.other, some _ => true

/-- Whether the `psutil` fallback would run to completion and yield no
matching process. -/
def fallbackNothing (pname : String) : Option (List ProcInfo) → Bool
  | none => true
  | some procs =>
    match psMatchLoop pname procs [] with
    | Except.ok [] => true
    | _ => false

/-- The entries kept by the removal of a profile entry: everything but
the path itself for a file, everything outside the subtree for a
directory. -/
def keepFor (e : ProfileEntry) (q : FPath) : Bool :=
  match e.kind with
  | EntryKind.file => !(q == e.path)
  | EntryKind.dir => !(List.isPrefixOf e.path q)

/-- Two paths that are not nested in either direction. -/
def noOverlap (p q : FPath) : Bool :=
  !(List.isPrefixOf p q) && !(List.isPrefixOf q p)

/-- Pairwise non-nesting of a profile's paths; all of the tool's
declared profiles satisfy it. -/
def profileDisjointB : List ProfileEntry → Bool
  | [] => true
  | e :: rest =>
    rest.all (fun e2 => noOverlap e.path e2.path) && profileDisjointB rest

/-- The cleanup profiles declared in the source (the chat profile of
`clear_chat_history` is computed from the listing and handled there). -/
def declaredProfiles : List (List ProfileEntry) :=
  [cacheProfile, identityFilesProfile, networkFilesProfile, storageProfile,
   advancedSharedProfile, advancedSystemProfile]

/-- A removal-failure oracle under which every removal succeeds. -/
def noFail : FPath → Bool := fun _ => false

/-- A sample state for the profile-removal witness: the data directory
with two of the cache directories present. -/
def fsCacheSample : FS :=
  ⟨[([], Node.dir), (["Cache"], Node.dir), (["GPUCache"], Node.dir),
    (["Preferences"], Node.text "prefs")]⟩

/-- A sample well-formed UUID value (all free bits zero). -/
def uuidZero : UUIDv4 :=
  ⟨[0, 0, 0, 0, 0, 0, 64, 0, 128, 0, 0, 0, 0, 0, 0, 0], by decide⟩

/-- A second sample UUID value. -/
def uuidOne : UUIDv4 :=
  ⟨[0, 0, 0, 0, 0, 0, 64, 0, 128, 0, 0, 0, 0, 0, 0, 1], by decide⟩

/-- A sample state whose `storage.json` is a well-formed object. -/
def fsStorageSample : FS :=
  ⟨[([], Node.dir),
    (storagePath, Node.json [("other", "1"), ("telemetry.machineId", "x")])]⟩

/-- A sample state whose `storage.json` holds one chat key and one
unrelated key. -/
def fsChatSample : FS :=
  ⟨[([], Node.dir),
    (storagePath, Node.json [("aiChatHistory", "a"), ("other", "b")])]⟩

/-- A sample state with the data directory and a `machineid` file. -/
def fsMachineSample : FS :=
  ⟨[([], Node.dir), (machineidPath, Node.text "old-machine-id")]⟩

/-- A state whose `machineid` file already holds the canonical form of
`uuidZero`: the prior content coincides with a possible fresh draw. -/
def fsPriorSample : FS :=
  ⟨[([], Node.dir), (machineidPath, Node.text (uuidCanon uuidZero))]⟩

/-- A state whose `machineid` file holds content that is not a UUID. -/
def fsPriorOther : FS :=
  ⟨[([], Node.dir), (machineidPath, Node.text "not-a-uuid")]⟩

/-- A sample state holding only the data directory itself. -/
def fsRootOnly : FS := ⟨[([], Node.dir)]⟩

/-- A sample state with the data directory but neither `machineid` nor
`storage.json`. -/
def fsNoIdFiles : FS := ⟨[([], Node.dir), (["Cache"], Node.dir)]⟩

theorem isPrefixOf_self (p : FPath) : List.isPrefixOf p p = true := by
  simp [List.isPrefixOf_iff_prefix]

theorem hasPath_filter (l : List (FPath × Node)) (g : FPath → Bool) (q : FPath) :
    FS.hasPath ⟨l.filter (fun ent => g ent.1)⟩ q = (g q && FS.hasPath ⟨l⟩ q) := by
  simp only [FS.hasPath, List.any_filter]
  cases hg : g q with
  | false =>
    simp only [Bool.false_and]
    rw [List.any_eq_false]
    intro a _
    by_cases h : a.1 = q
    · simp [h, hg]
    · simp [beq_eq_false_iff_ne.2 h]
  | true =>
    rw [Bool.true_and, Bool.eq_iff_iff]
    simp only [List.any_eq_true]
    constructor
    · rintro ⟨a, ha, hpa⟩
      rw [Bool.and_eq_true] at hpa
      exact ⟨a, ha, hpa.2⟩
    · rintro ⟨a, ha, hpa⟩
      refine ⟨a, ha, ?_⟩
      have h1 : a.1 = q := beq_iff_eq.1 hpa
      simp [h1, hg]

theorem find_filter (l : List (FPath × Node)) (g : FPath → Bool) (q : FPath)
    (hg : g q = true) :
    FS.find ⟨l.filter (fun ent => g ent.1)⟩ q = FS.find ⟨l⟩ q := by
  induction l with
  | nil => rfl
  | cons hd tl ih =>
    simp only [FS.find] at ih ⊢
    by_cases h : hd.1 = q
    · have hb : (hd.1 == q) = true := beq_iff_eq.2 h
      rw [List.filter_cons_of_pos (by simpa [h] using hg)]
      simp [List.find?_cons, hb]
    · have hb : (hd.1 == q) = false := beq_eq_false_iff_ne.2 h
      cases hgh : g hd.1
      · rw [List.filter_cons_of_neg (by simp [hgh])]
        rw [show List.find? (fun ent => ent.1 == q) (hd :: tl)
            = List.find? (fun ent => ent.1 == q) tl by simp [List.find?_cons, hb]]
        exact ih
      · rw [List.filter_cons_of_pos (by simp [hgh])]
        rw [show List.find? (fun ent => ent.1 == q) (hd :: List.filter (fun ent => g ent.1) tl)
            = List.find? (fun ent => ent.1 == q) (List.filter (fun ent => g ent.1) tl) by
            simp [List.find?_cons, hb]]
        rw [show List.find? (fun ent => ent.1 == q) (hd :: tl)
            = List.find? (fun ent => ent.1 == q) tl by simp [List.find?_cons, hb]]
        exact ih

theorem removeEntry_hasPath (fs : FS) (e : ProfileEntry) (q : FPath) :
    (removeEntry fs e).hasPath q = (keepFor e q && fs.hasPath q) := by
  rcases e with ⟨p, k⟩
  cases k
  · exact hasPath_filter fs.entries (fun x => !(x == p)) q
  · exact hasPath_filter fs.entries (fun x => !(List.isPrefixOf p x)) q

theorem keepFor_self (e : ProfileEntry) : keepFor e e.path = false := by
  rcases e with ⟨p, k⟩
  cases k
  · simp [keepFor]
  · simp [keepFor, isPrefixOf_self]

theorem keepFor_of_noOverlap {e : ProfileEntry} {q : FPath}
    (h : noOverlap e.path q = true) : keepFor e q = true := by
  rw [noOverlap, Bool.and_eq_true] at h
  obtain ⟨h1, _⟩ := h
  obtain ⟨p, k⟩ := e
  cases k
  · simp only [keepFor, Bool.not_eq_true']
    rw [beq_eq_false_iff_ne]
    intro hq
    subst hq
    rw [isPrefixOf_self] at h1
    exact absurd h1 (by simp)
  · simpa [keepFor] using h1

theorem applyProfile_hasPath_false (fails : FPath → Bool)
    (P : List ProfileEntry) (fs : FS) (q : FPath)
    (h : fs.hasPath q = false) :
    ((applyProfile fails fs P).1).hasPath q = false := by
  induction P generalizing fs with
  | nil => simpa [applyProfile] using h
  | cons e rest ih =>
    by_cases hex : fs.hasPath e.path = true
    · by_cases hfl : fails e.path = true
      · simpa [applyProfile, hex, hfl] using ih fs h
      · have h' : (removeEntry fs e).hasPath q = false := by
          rw [removeEntry_hasPath, h, Bool.and_false]
        simpa [applyProfile, hex, hfl] using ih (removeEntry fs e) h'
    · simpa [applyProfile, hex] using ih fs h

theorem applyProfile_of_none (fails : FPath → Bool) (fs : FS)
    (P : List ProfileEntry) (h : ∀ e ∈ P, fs.hasPath e.path = false) :
    applyProfile fails fs P = (fs, 0, []) := by
  induction P with
  | nil => rfl
  | cons e rest ih =>
    have he : fs.hasPath e.path = false := h e (by simp)
    rw [applyProfile, he]
    simp only [Bool.false_eq_true, if_false]
    exact ih (fun x hx => h x (by simp [hx]))

theorem applyProfile_spec (fails : FPath → Bool) (P : List ProfileEntry)
    (fs : FS) (hd : profileDisjointB P = true)
    (hf : ∀ e ∈ P, fails e.path = false) :
    (applyProfile fails fs P).2.1 =
      (P.filter (fun e => fs.hasPath e.path)).length ∧
    (applyProfile fails fs P).2.2 = [] ∧
    ∀ e ∈ P, ((applyProfile fails fs P).1).hasPath e.path = false := by
  induction P generalizing fs with
  | nil => simp [applyProfile]
  | cons e rest ih =>
    rw [profileDisjointB, Bool.and_eq_true] at hd
    obtain ⟨hno, hdrest⟩ := hd
    have hfe : fails e.path = false := hf e (by simp)
    have hfrest : ∀ x ∈ rest, fails x.path = false :=
      fun x hx => hf x (by simp [hx])
    by_cases hex : fs.hasPath e.path = true
    · have ihr := ih (removeEntry fs e) hdrest hfrest
      have hpres : ∀ x ∈ rest,
          (removeEntry fs e).hasPath x.path = fs.hasPath x.path := by
        intro x hx
        rw [removeEntry_hasPath]
        have hno' : noOverlap e.path x.path = true :=
          List.all_eq_true.1 hno x hx
        rw [keepFor_of_noOverlap hno', Bool.true_and]
      have hcount : (rest.filter (fun x => (removeEntry fs e).hasPath x.path)).length
          = (rest.filter (fun x => fs.hasPath x.path)).length := by
        rw [List.filter_congr (fun x hx => hpres x hx)]
      have heq : applyProfile fails fs (e :: rest) =
          ((applyProfile fails (removeEntry fs e) rest).1,
           (applyProfile fails (removeEntry fs e) rest).2.1 + 1,
           (applyProfile fails (removeEntry fs e) rest).2.2) := by
        rw [applyProfile, hex]
        simp [hfe]
      refine ⟨?_, ?_, ?_⟩
      · rw [heq,
          show List.filter (fun x => fs.hasPath x.path) (e :: rest)
            = e :: List.filter (fun x => fs.hasPath x.path) rest
            from List.filter_cons_of_pos hex]
        simp only [List.length_cons]
        rw [ihr.1, hcount]
      · rw [heq]
        exact ihr.2.1
      · intro x hx
        rw [heq]
        simp only []
        rcases List.mem_cons.1 hx with rfl | hx'
        · apply applyProfile_hasPath_false
          rw [removeEntry_hasPath, keepFor_self, Bool.false_and]
        · exact ihr.2.2 x hx'
    · have hex' : fs.hasPath e.path = false := by
        cases hval : fs.hasPath e.path
        · rfl
        · exact absurd hval hex
      have ihr := ih fs hdrest hfrest
      have heq : applyProfile fails fs (e :: rest) =
          applyProfile fails fs rest := by
        rw [applyProfile, hex']
        simp
      refine ⟨?_, ?_, ?_⟩
      · rw [heq,
          show List.filter (fun x => fs.hasPath x.path) (e :: rest)
            = List.filter (fun x => fs.hasPath x.path) rest
            from List.filter_cons_of_neg (by simp [hex'])]
        exact ihr.1
      · rw [heq]
        exact ihr.2.1
      · intro x hx
        rw [heq]
        rcases List.mem_cons.1 hx with rfl | hx'
        · exact applyProfile_hasPath_false fails rest fs x.path hex'
        · exact ihr.2.2 x hx'

theorem find_write_self (fs : FS) (p : FPath) (nd : Node) :
    (fs.write p nd).find p = some nd := by
  simp [FS.write, FS.find, List.find?_cons]

theorem hasPath_write_self (fs : FS) (p : FPath) (nd : Node) :
    (fs.write p nd).hasPath p = true := by
  simp [FS.write, FS.hasPath]

theorem find_write_ne (fs : FS) (p q : FPath) (nd : Node) (h : q ≠ p) :
    (fs.write p nd).find q = fs.find q := by
  have hb : (p == q) = false := beq_eq_false_iff_ne.2 (fun hpq => h hpq.symm)
  rw [FS.write, FS.find,
    show List.find? (fun ent => ent.1 == q)
        ((p, nd) :: List.filter (fun ent => !(ent.1 == p)) fs.entries)
      = List.find? (fun ent => ent.1 == q)
        (List.filter (fun ent => !(ent.1 == p)) fs.entries) by
      simp [List.find?_cons, hb]]
  exact find_filter fs.entries (fun x => !(x == p)) q (by simp [beq_eq_false_iff_ne.2 h])

theorem hasPath_write_ne (fs : FS) (p q : FPath) (nd : Node) (h : q ≠ p) :
    (fs.write p nd).hasPath q = fs.hasPath q := by
  have hfil := hasPath_filter fs.entries (fun x => !(x == p)) q
  have hb : (p == q) = false := beq_eq_false_iff_ne.2 (fun hpq => h hpq.symm)
  have hq : (!(q == p)) = true := by simp [beq_eq_false_iff_ne.2 h]
  rw [hq, Bool.true_and] at hfil
  show (((p, nd) :: List.filter (fun ent => !(ent.1 == p)) fs.entries).any
      (fun ent => ent.1 == q)) = fs.hasPath q
  rw [List.any_cons]
  simp only [hb, Bool.false_or]
  exact hfil

theorem hasPath_of_find {fs : FS} {p : FPath} {nd : Node}
    (h : fs.find p = some nd) : fs.hasPath p = true := by
  rw [FS.find] at h
  rw [FS.hasPath]
  cases hf : List.find? (fun ent => ent.1 == p) fs.entries with
  | none => rw [hf] at h; exact absurd h (by simp)
  | some ent =>
    have hm := List.find?_some hf
    have hmem := List.mem_of_find?_eq_some hf
    exact List.any_eq_true.2 ⟨ent, hmem, hm⟩

/-- C9: `apply_profile` (the source's best-effort removal loops) on a
root where a declared profile lists some existing and some non-existing
paths, with all removals succeeding, removes exactly the existing
entries with zero errors; non-existing entries are skipped silently, and
an immediate re-run of the same profile removes 0 entries with zero
errors. -/
theorem applyProfile_removes_existing_and_idempotent
    (P : List ProfileEntry) (hP : P ∈ declaredProfiles)
    (fails : FPath → Bool) (fs : FS)
    (hf : ∀ e ∈ P, fails e.path = false) :
    (applyProfile fails fs P).2.1 =
      (P.filter (fun e => fs.hasPath e.path)).length ∧
    (applyProfile fails fs P).2.2 = [] ∧
    (applyProfile fails ((applyProfile fails fs P).1) P).2.1 = 0 ∧
    (applyProfile fails ((applyProfile fails fs P).1) P).2.2 = [] := by
  have hdisj : profileDisjointB P = true := by
    rw [declaredProfiles] at hP
    simp only [List.mem_cons, List.not_mem_nil, or_false] at hP
    rcases hP with rfl | rfl | rfl | rfl | rfl | rfl <;> decide
  obtain ⟨h1, h2, h3⟩ := applyProfile_spec fails P fs hdisj hf
  have hsecond := applyProfile_of_none fails ((applyProfile fails fs P).1) P h3
  exact ⟨h1, h2, by rw [hsecond], by rw [hsecond]⟩

theorem applyProfile_removes_existing_and_idempotent_witness :
    (applyProfile noFail fsCacheSample cacheProfile).2.1 =
      (cacheProfile.filter (fun e => fsCacheSample.hasPath e.path)).length ∧
    (applyProfile noFail fsCacheSample cacheProfile).2.2 = [] ∧
    (applyProfile noFail
      ((applyProfile noFail fsCacheSample cacheProfile).1) cacheProfile).2.1 = 0 ∧
    (applyProfile noFail
      ((applyProfile noFail fsCacheSample cacheProfile).1) cacheProfile).2.2 = [] :=
  applyProfile_removes_existing_and_idempotent cacheProfile (by decide)
    noFail fsCacheSample (by decide)

theorem lookupKey_setKey_self (obj : List (String × String)) (k v : String) :
    lookupKey (setKey obj k v) k = some v := by
  induction obj with
  | nil => simp [setKey, lookupKey]
  | cons kv rest ih =>
    by_cases h : kv.1 = k
    · simp [setKey, lookupKey, beq_iff_eq.2 h]
    · simp [setKey, lookupKey, beq_eq_false_iff_ne.2 h, ih]

theorem lookupKey_setKey_ne (obj : List (String × String)) (k v k' : String)
    (h : k' ≠ k) : lookupKey (setKey obj k v) k' = lookupKey obj k' := by
  have hb : (k == k') = false := beq_eq_false_iff_ne.2 (fun he => h he.symm)
  induction obj with
  | nil => simp [setKey, lookupKey, hb]
  | cons kv rest ih =>
    by_cases hh : kv.1 = k
    · subst hh
      simp only [setKey, beq_self_eq_true, if_true]
      rw [lookupKey, lookupKey]
      simp only [hb]
      rw [if_neg (by simp), if_neg (by simp [hb])]
    · simp only [setKey, beq_eq_false_iff_ne.2 hh, Bool.false_eq_true, if_false]
      rw [lookupKey, lookupKey]
      by_cases hk : kv.1 = k'
      · simp [hk]
      · simp only [beq_eq_false_iff_ne.2 hk, Bool.false_eq_true, if_false]
        exact ih

/-- C3: after a successful `reset_telemetry` on an existing,
well-formed `storage.json`, the keys `telemetry.machineId` and
`telemetry.devDeviceId` hold the newly generated hash and device id
(created if absent, overwritten if present), and every other key of the
JSON object holds exactly the value it held before. -/
theorem reset_telemetry_sets_keys_and_preserves_rest
    (u1 u2 : UUIDv4) (fs : FS) (obj : List (String × String))
    (h : fs.find storagePath = some (Node.json obj)) :
    (reset_telemetry false u1 u2 fs).1 = TelemetryOutcome.success ∧
    ∃ obj', (reset_telemetry false u1 u2 fs).2.find storagePath =
        some (Node.json obj') ∧
      lookupKey obj' "telemetry.machineId" = some (generateMachineIdHash u1) ∧
      lookupKey obj' "telemetry.devDeviceId" = some (uuidCanon u2) ∧
      ∀ k, k ≠ "telemetry.machineId" → k ≠ "telemetry.devDeviceId" →
        lookupKey obj' k = lookupKey obj k := by
  have hpath : fs.hasPath storagePath = true := hasPath_of_find h
  have hres : reset_telemetry false u1 u2 fs =
      (TelemetryOutcome.success,
        fs.write storagePath
          (Node.json (setTelemetryKeys obj (generateMachineIdHash u1) (uuidCanon u2)))) := by
    rw [reset_telemetry]
    simp [hpath, h]
  refine ⟨by rw [hres], setTelemetryKeys obj (generateMachineIdHash u1) (uuidCanon u2),
    ?_, ?_, ?_, ?_⟩
  · rw [hres]
    exact find_write_self fs storagePath _
  · rw [setTelemetryKeys, lookupKey_setKey_ne _ _ _ _ (by decide)]
    exact lookupKey_setKey_self obj "telemetry.machineId" _
  · exact lookupKey_setKey_self _ "telemetry.devDeviceId" _
  · intro k hk1 hk2
    rw [setTelemetryKeys, lookupKey_setKey_ne _ _ _ _ hk2,
      lookupKey_setKey_ne _ _ _ _ hk1]

theorem reset_telemetry_sets_keys_and_preserves_rest_witness :
    (reset_telemetry false uuidZero uuidOne fsStorageSample).1 =
      TelemetryOutcome.success ∧
    ∃ obj', (reset_telemetry false uuidZero uuidOne fsStorageSample).2.find
        storagePath = some (Node.json obj') ∧
      lookupKey obj' "telemetry.machineId" =
        some (generateMachineIdHash uuidZero) ∧
      lookupKey obj' "telemetry.devDeviceId" = some (uuidCanon uuidOne) ∧
      ∀ k, k ≠ "telemetry.machineId" → k ≠ "telemetry.devDeviceId" →
        lookupKey obj' k =
          lookupKey [("other", "1"), ("telemetry.machineId", "x")] k :=
  reset_telemetry_sets_keys_and_preserves_rest uuidZero uuidOne fsStorageSample
    [("other", "1"), ("telemetry.machineId", "x")] (by decide)

theorem mem_delKey (o : List (String × String)) (a k v : String) :
    (k, v) ∈ delKey o a ↔ ((k, v) ∈ o ∧ k ≠ a) := by
  rw [delKey, List.mem_filter]
  constructor
  · rintro ⟨h1, h2⟩
    refine ⟨h1, ?_⟩
    simpa [beq_eq_false_iff_ne] using h2
  · rintro ⟨h1, h2⟩
    exact ⟨h1, by simpa [beq_eq_false_iff_ne] using h2⟩

theorem mem_foldl_delKey (ks : List String) (o : List (String × String))
    (k v : String) :
    (k, v) ∈ ks.foldl delKey o ↔ ((k, v) ∈ o ∧ k ∉ ks) := by
  induction ks generalizing o with
  | nil => simp
  | cons a ks ih =>
    rw [List.foldl_cons, ih, mem_delKey]
    constructor
    · rintro ⟨⟨h1, h2⟩, h3⟩
      exact ⟨h1, by simp [h2, h3]⟩
    · rintro ⟨h1, h2⟩
      simp only [List.mem_cons, not_or] at h2
      exact ⟨⟨h1, h2.1⟩, h2.2⟩

/-- C4: the chat purge, applied to a `storage.json` that parses as a
JSON object, removes exactly the top-level keys whose name
case-insensitively contains `chat`, `conversation`, `history` or
`session`, and leaves every other key with its value intact. -/
theorem chat_purge_removes_exactly_chat_keys
    (fs : FS) (obj : List (String × String))
    (h : fs.find storagePath = some (Node.json obj)) :
    ∃ obj', (clearChatStorageStep fs).find storagePath = some (Node.json obj') ∧
      ∀ k v, ((k, v) ∈ obj' ↔ ((k, v) ∈ obj ∧ chatKeyB k = false)) := by
  have hpath : fs.hasPath storagePath = true := hasPath_of_find h
  rw [clearChatStorageStep, hpath, if_pos rfl, h]
  show ∃ obj',
    (if ((obj.map Prod.fst).filter chatKeyB).isEmpty = true then fs
      else fs.write storagePath
        (Node.json (List.foldl delKey obj ((obj.map Prod.fst).filter chatKeyB)))).find
      storagePath = some (Node.json obj') ∧
    ∀ k v, ((k, v) ∈ obj' ↔ ((k, v) ∈ obj ∧ chatKeyB k = false))
  by_cases hemp : ((obj.map Prod.fst).filter chatKeyB).isEmpty = true
  case neg =>
    rw [if_neg hemp]
    refine ⟨(obj.map Prod.fst).filter chatKeyB |>.foldl delKey obj,
      find_write_self fs storagePath _, ?_⟩
    intro k v
    rw [mem_foldl_delKey]
    constructor
    · rintro ⟨h1, h2⟩
      refine ⟨h1, ?_⟩
      cases hc : chatKeyB k
      · rfl
      · exact absurd (List.mem_filter.2
          ⟨List.mem_map_of_mem Prod.fst h1, hc⟩) h2
    · rintro ⟨h1, h2⟩
      refine ⟨h1, fun hmem => ?_⟩
      have := (List.mem_filter.1 hmem).2
      rw [h2] at this
      exact absurd this (by simp)
  case pos =>
    rw [if_pos hemp]
    refine ⟨obj, h, ?_⟩
    intro k v
    have hnil : (obj.map Prod.fst).filter chatKeyB = [] :=
      List.isEmpty_iff.1 hemp
    constructor
    · intro h1
      refine ⟨h1, ?_⟩
      have hk : k ∈ obj.map Prod.fst := List.mem_map_of_mem Prod.fst h1
      have := List.filter_eq_nil_iff.1 hnil k hk
      simpa using this
    · rintro ⟨h1, _⟩
      exact h1

theorem chat_purge_removes_exactly_chat_keys_witness :
    ∃ obj', (clearChatStorageStep fsChatSample).find storagePath =
        some (Node.json obj') ∧
      ∀ k v, ((k, v) ∈ obj' ↔
        ((k, v) ∈ [("aiChatHistory", "a"), ("other", "b")] ∧
          chatKeyB k = false)) :=
  chat_purge_removes_exactly_chat_keys fsChatSample
    [("aiChatHistory", "a"), ("other", "b")] (by decide)

/-- C1: with the target process detected running, no destructive
operation mutates any file: the standalone machine-ID and telemetry
resets abort outright, and the one-click (full reset) and deep-cleanup
handlers leave the state untouched unless the caller confirms past the
prompt and the second process check reports not running — if the second
check still reports running, they abort without mutating. -/
theorem destructive_ops_gated_on_process
    (c1 r2 c2 preserveChat : Bool) (u1 u2 u3 : UUIDv4)
    (fails : FPath → Bool) (fs : FS) :
    reset_machine_id true u1 fs = (ResetMachineIdOutcome.stillRunning, fs) ∧
    reset_telemetry true u2 u3 fs = (TelemetryOutcome.stillRunning, fs) ∧
    (c1 = false →
      one_click_reset true c1 r2 c2 preserveChat u1 u2 u3 fails fs = fs) ∧
    (r2 = true →
      one_click_reset true c1 r2 c2 preserveChat u1 u2 u3 fails fs = fs) ∧
    (c1 = false → deep_identity_cleanup true c1 r2 c2 fails fs = fs) ∧
    (r2 = true → deep_identity_cleanup true c1 r2 c2 fails fs = fs) := by
  refine ⟨rfl, rfl, ?_, ?_, ?_, ?_⟩ <;> intro h <;> subst h
  · simp [one_click_reset, oneClickProceeds]
  · cases c1 <;> simp [one_click_reset, oneClickProceeds]
  · simp [deep_identity_cleanup, deepCleanProceeds]
  · cases c1 <;> simp [deep_identity_cleanup, deepCleanProceeds]

theorem destructive_ops_gated_on_process_witness :
    one_click_reset true true true true true uuidZero uuidZero uuidOne
      noFail (⟨[]⟩ : FS) = (⟨[]⟩ : FS) :=
  (destructive_ops_gated_on_process true true true true uuidZero uuidZero
    uuidOne noFail (⟨[]⟩ : FS)).2.2.2.1 rfl

theorem reset_machine_id_cases (u : UUIDv4) (fs : FS) :
    (fs.hasPath [] = false →
      reset_machine_id false u fs = (ResetMachineIdOutcome.noDataDir, fs)) ∧
    (fs.hasPath [] = true → fs.hasPath machineidPath = false →
      reset_machine_id false u fs =
        (ResetMachineIdOutcome.noMachineIdFile, fs)) ∧
    (fs.hasPath [] = true → fs.hasPath machineidPath = true →
      (reset_machine_id false u fs).1 = ResetMachineIdOutcome.success ∧
      (reset_machine_id false u fs).2.find machineidPath =
        some (Node.text (uuidCanon u))) := by
  refine ⟨?_, ?_, ?_⟩
  · intro h
    simp [reset_machine_id, h]
  · intro h1 h2
    simp [reset_machine_id, h1, h2]
  · intro h1 h2
    refine ⟨by simp [reset_machine_id, h1, h2], ?_⟩
    have : (reset_machine_id false u fs).2 =
        fs.write machineidPath (Node.text (uuidCanon u)) := by
      simp [reset_machine_id, h1, h2]
    rw [this]
    exact find_write_self fs machineidPath _

/-- C6: the standalone machine-ID reset surfaces a failure and writes
nothing whenever the data directory or the `machineid` file is absent;
when both exist it overwrites the file with the freshly generated
UUID's canonical text (a plain-text node, not a JSON one). -/
theorem reset_machine_id_requires_dir_and_file (u : UUIDv4) (fs : FS) :
    (fs.hasPath [] = false →
      reset_machine_id false u fs = (ResetMachineIdOutcome.noDataDir, fs)) ∧
    (fs.hasPath [] = true → fs.hasPath machineidPath = false →
      reset_machine_id false u fs =
        (ResetMachineIdOutcome.noMachineIdFile, fs)) ∧
    (fs.hasPath [] = true → fs.hasPath machineidPath = true →
      (reset_machine_id false u fs).1 = ResetMachineIdOutcome.success ∧
      (reset_machine_id false u fs).2.find machineidPath =
        some (Node.text (uuidCanon u))) :=
  reset_machine_id_cases u fs

theorem reset_machine_id_requires_dir_and_file_witness :
    (reset_machine_id false uuidZero fsMachineSample).1 =
      ResetMachineIdOutcome.success ∧
    (reset_machine_id false uuidZero fsMachineSample).2.find machineidPath =
      some (Node.text (uuidCanon uuidZero)) :=
  (reset_machine_id_requires_dir_and_file uuidZero fsMachineSample).2.2
    (by decide) (by decide)

theorem hexDigit_isHexLower (n : Nat) (h : n < 16) :
    isHexLower (hexDigit n) = true := by
  interval_cases n <;> decide

theorem hexDigit_ne_dash (n : Nat) (h : n < 16) : hexDigit n ≠ '-' := by
  interval_cases n <;> decide

theorem byteHex_hex (b : Nat) (h : b < 256) :
    ∀ c ∈ byteHex b, isHexLower c = true := by
  intro c hc
  have h1 : b / 16 < 16 := by omega
  have h2 : b % 16 < 16 := Nat.mod_lt _ (by norm_num)
  rw [byteHex] at hc
  rcases List.mem_cons.1 hc with rfl | hc'
  · exact hexDigit_isHexLower _ h1
  · rcases List.mem_cons.1 hc' with rfl | hc''
    · exact hexDigit_isHexLower _ h2
    · exact absurd hc'' (by simp)

theorem hexOfBytes_cons (b : Nat) (bs : List Nat) :
    hexOfBytes (b :: bs) = byteHex b ++ hexOfBytes bs := by
  simp [hexOfBytes]

theorem hexOfBytes_length (bs : List Nat) :
    (hexOfBytes bs).length = 2 * bs.length := by
  induction bs with
  | nil => rfl
  | cons b bs ih =>
    rw [hexOfBytes_cons, List.length_append, ih]
    simp [byteHex]
    ring

theorem hexOfBytes_hex (bs : List Nat) (h : ∀ b ∈ bs, b < 256) :
    ∀ c ∈ hexOfBytes bs, isHexLower c = true := by
  induction bs with
  | nil => intro c hc; exact absurd hc (by simp [hexOfBytes])
  | cons b bs ih =>
    intro c hc
    rw [hexOfBytes_cons] at hc
    rcases List.mem_append.1 hc with hc | hc
    · exact byteHex_hex b (h b (by simp)) c hc
    · exact ih (fun x hx => h x (by simp [hx])) c hc

theorem isHexLower_ne_dash {c : Char} (h : isHexLower c = true) : c ≠ '-' := by
  intro hc
  subst hc
  exact absurd h (by decide)

theorem splitOnDash_ne_nil (l : List Char) : splitOnDash l ≠ [] := by
  cases l with
  | nil => simp [splitOnDash]
  | cons c rest =>
    rw [splitOnDash]
    by_cases h : (c == '-') = true
    · simp [h]
    · simp only [h, Bool.false_eq_true, if_false]
      cases hs : splitOnDash rest <;> simp

theorem splitOnDash_no_dash (A : List Char) (h : ∀ c ∈ A, c ≠ '-') :
    splitOnDash A = [A] := by
  induction A with
  | nil => rfl
  | cons c rest ih =>
    have hc : (c == '-') = false :=
      beq_eq_false_iff_ne.2 (h c (by simp))
    rw [splitOnDash]
    simp only [hc, Bool.false_eq_true, if_false]
    rw [ih (fun x hx => h x (by simp [hx]))]

theorem splitOnDash_append (A r : List Char) (h : ∀ c ∈ A, c ≠ '-') :
    splitOnDash (A ++ '-' :: r) = A :: splitOnDash r := by
  induction A with
  | nil => simp [splitOnDash]
  | cons c rest ih =>
    have hc : (c == '-') = false :=
      beq_eq_false_iff_ne.2 (h c (by simp))
    rw [List.cons_append, splitOnDash]
    simp only [hc, Bool.false_eq_true, if_false]
    rw [ih (fun x hx => h x (by simp [hx]))]

theorem uuid_bytes_facts (u : UUIDv4) :
    u.bytes.length = 16 ∧ ∀ b ∈ u.bytes, b < 256 := by
  have hw := u.wf
  rw [uuidWF] at hw
  simp only [Bool.and_eq_true, beq_iff_eq, List.all_eq_true,
    decide_eq_true_eq] at hw
  exact ⟨hw.1.1.1, hw.1.1.2⟩

/-- The canonical form of a version-4 UUID value is a syntactically
valid UUID string. -/
theorem uuidCanon_valid (u : UUIDv4) :
    isValidUUIDString (uuidCanon u) = true := by
  obtain ⟨hlen, hlt⟩ := uuid_bytes_facts u
  have hx1 : ∀ c ∈ hexOfBytes (u.bytes.take 4), isHexLower c = true :=
    hexOfBytes_hex _ (fun b hb => hlt b (List.mem_of_mem_take hb))
  have hx2 : ∀ c ∈ hexOfBytes ((u.bytes.drop 4).take 2), isHexLower c = true :=
    hexOfBytes_hex _
      (fun b hb => hlt b (List.mem_of_mem_drop (List.mem_of_mem_take hb)))
  have hx3 : ∀ c ∈ hexOfBytes ((u.bytes.drop 6).take 2), isHexLower c = true :=
    hexOfBytes_hex _
      (fun b hb => hlt b (List.mem_of_mem_drop (List.mem_of_mem_take hb)))
  have hx4 : ∀ c ∈ hexOfBytes ((u.bytes.drop 8).take 2), isHexLower c = true :=
    hexOfBytes_hex _
      (fun b hb => hlt b (List.mem_of_mem_drop (List.mem_of_mem_take hb)))
  have hx5 : ∀ c ∈ hexOfBytes (u.bytes.drop 10), isHexLower c = true :=
    hexOfBytes_hex _ (fun b hb => hlt b (List.mem_of_mem_drop hb))
  rw [isValidUUIDString, uuidCanon]
  rw [show (String.mk (hexOfBytes (u.bytes.take 4) ++ '-' ::
      (hexOfBytes ((u.bytes.drop 4).take 2) ++ '-' ::
        (hexOfBytes ((u.bytes.drop 6).take 2) ++ '-' ::
          (hexOfBytes ((u.bytes.drop 8).take 2) ++ '-' ::
            hexOfBytes (u.bytes.drop 10)))))).data =
      hexOfBytes (u.bytes.take 4) ++ '-' ::
      (hexOfBytes ((u.bytes.drop 4).take 2) ++ '-' ::
        (hexOfBytes ((u.bytes.drop 6).take 2) ++ '-' ::
          (hexOfBytes ((u.bytes.drop 8).take 2) ++ '-' ::
            hexOfBytes (u.bytes.drop 10)))) from rfl]
  rw [splitOnDash_append _ _ (fun c hc => isHexLower_ne_dash (hx1 c hc))]
  rw [splitOnDash_append _ _ (fun c hc => isHexLower_ne_dash (hx2 c hc))]
  rw [splitOnDash_append _ _ (fun c hc => isHexLower_ne_dash (hx3 c hc))]
  rw [splitOnDash_append _ _ (fun c hc => isHexLower_ne_dash (hx4 c hc))]
  rw [splitOnDash_no_dash _ (fun c hc => isHexLower_ne_dash (hx5 c hc))]
  simp only [Bool.and_eq_true, beq_iff_eq, List.all_eq_true]
  refine ⟨⟨⟨⟨⟨?_, ?_⟩, ?_⟩, ?_⟩, ?_⟩, ?_⟩
  · rw [hexOfBytes_length, List.length_take, hlen]
    decide
  · rw [hexOfBytes_length, List.length_take, List.length_drop, hlen]
    decide
  · rw [hexOfBytes_length, List.length_take, List.length_drop, hlen]
    decide
  · rw [hexOfBytes_length, List.length_take, List.length_drop, hlen]
    decide
  · rw [hexOfBytes_length, List.length_drop, hlen]
  · intro c hc
    rcases List.mem_append.1 hc with h | h
    · rcases List.mem_append.1 h with h | h
      · rcases List.mem_append.1 h with h | h
        · rcases List.mem_append.1 h with h | h
          · exact hx1 c h
          · exact hx2 c h
        · exact hx3 c h
      · exact hx4 c h
    · exact hx5 c h

/-- C7 counterexample: `reset_machine_id` does not re-draw on
collision, so when the freshly drawn UUID's canonical form equals the
prior file content, the reset succeeds yet the file content does not
differ from its prior content. -/
theorem reset_machine_id_content_can_repeat :
    (reset_machine_id false uuidZero fsPriorSample).1 =
      ResetMachineIdOutcome.success ∧
    (reset_machine_id false uuidZero fsPriorSample).2.find machineidPath =
      fsPriorSample.find machineidPath := by
  constructor
  · decide
  · decide

/-- C7 as amended: after a successful standalone machine-ID reset, the
file's new content is a syntactically valid UUID, and it differs from
the prior content provided the freshly drawn UUID's canonical form is
not already that prior content. -/
theorem reset_machine_id_valid_uuid_and_differs
    (u : UUIDv4) (prior : String) (fs : FS)
    (hdir : fs.hasPath [] = true)
    (hfile : fs.find machineidPath = some (Node.text prior))
    (hne : uuidCanon u ≠ prior) :
    (reset_machine_id false u fs).1 = ResetMachineIdOutcome.success ∧
    (reset_machine_id false u fs).2.find machineidPath =
      some (Node.text (uuidCanon u)) ∧
    isValidUUIDString (uuidCanon u) = true ∧
    (reset_machine_id false u fs).2.find machineidPath ≠
      some (Node.text prior) := by
  have hfp : fs.hasPath machineidPath = true := hasPath_of_find hfile
  obtain ⟨h1, h2⟩ := (reset_machine_id_cases u fs).2.2 hdir hfp
  refine ⟨h1, h2, uuidCanon_valid u, ?_⟩
  rw [h2]
  intro hcontra
  apply hne
  have := Option.some.inj hcontra
  exact Node.text.inj this

theorem reset_machine_id_valid_uuid_and_differs_witness :
    (reset_machine_id false uuidZero fsPriorOther).1 =
      ResetMachineIdOutcome.success ∧
    (reset_machine_id false uuidZero fsPriorOther).2.find machineidPath =
      some (Node.text (uuidCanon uuidZero)) ∧
    isValidUUIDString (uuidCanon uuidZero) = true ∧
    (reset_machine_id false uuidZero fsPriorOther).2.find machineidPath ≠
      some (Node.text "not-a-uuid") :=
  reset_machine_id_valid_uuid_and_differs uuidZero "not-a-uuid" fsPriorOther
    (by decide) (by decide) (by decide)

theorem beBytes_length (k n : Nat) : (beBytes k n).length = k := by
  induction k generalizing n with
  | zero => rfl
  | succ k ih => simp [beBytes, ih]

theorem beBytes_lt (k n : Nat) : ∀ b ∈ beBytes k n, b < 256 := by
  induction k generalizing n with
  | zero => intro b hb; exact absurd hb (by simp [beBytes])
  | succ k ih =>
    intro b hb
    rw [beBytes] at hb
    rcases List.mem_append.1 hb with h | h
    · exact ih _ b h
    · have : b = n % 256 := by simpa using h
      rw [this]
      exact Nat.mod_lt _ (by norm_num)

theorem compressStep_length (st : List Nat) (kw : Nat × Nat) :
    (compressStep st kw).length = st.length := by
  rcases st with _ | ⟨a, _ | ⟨b, _ | ⟨c, _ | ⟨d, _ | ⟨e, _ | ⟨f, _ |
    ⟨g, _ | ⟨h, _ | ⟨i, tl⟩⟩⟩⟩⟩⟩⟩⟩⟩ <;> rfl

theorem foldl_compressStep_length (l : List (Nat × Nat)) (st : List Nat) :
    (l.foldl compressStep st).length = st.length := by
  induction l generalizing st with
  | nil => rfl
  | cons kw l ih => rw [List.foldl_cons, ih, compressStep_length]

theorem compressBlock_length (hs block : List Nat) (h : hs.length = 8) :
    (compressBlock hs block).length = 8 := by
  rw [compressBlock, List.length_zipWith, foldl_compressStep_length, h]
  decide

theorem sha256Go_length (n : Nat) (ws hs : List Nat) (h : hs.length = 8) :
    (sha256Go n ws hs).length = 8 := by
  induction n generalizing ws hs with
  | zero => exact h
  | succ n ih => exact ih _ _ (compressBlock_length hs _ h)

theorem join_map_beBytes4_length (hs : List Nat) :
    ((hs.map (beBytes 4)).flatten).length = 4 * hs.length := by
  induction hs with
  | nil => rfl
  | cons h hs ih =>
    simp only [List.map_cons, List.flatten_cons, List.length_append,
      beBytes_length, ih, List.length_cons]
    ring

theorem sha256Bytes_length (msg : List Nat) :
    (sha256Bytes msg).length = 32 := by
  rw [sha256Bytes, join_map_beBytes4_length, sha256Go_length]
  rfl

theorem sha256Bytes_lt (msg : List Nat) : ∀ b ∈ sha256Bytes msg, b < 256 := by
  intro b hb
  rw [sha256Bytes] at hb
  rcases List.mem_flatten.1 hb with ⟨l, hl, hbl⟩
  rcases List.mem_map.1 hl with ⟨w, _, rfl⟩
  exact beBytes_lt 4 w b hbl

theorem sha256Hex_length (msg : List Nat) : (sha256Hex msg).length = 64 := by
  rw [sha256Hex, String.length_mk, hexOfBytes_length, sha256Bytes_length]

theorem sha256Hex_chars (msg : List Nat) :
    ∀ c ∈ (sha256Hex msg).data, isHexLower c = true := by
  intro c hc
  rw [sha256Hex] at hc
  exact hexOfBytes_hex _ (sha256Bytes_lt msg) c hc

/-- C8: `generate_machine_id_hash` returns a 64-character lowercase
hexadecimal string, namely the hex-rendered SHA-256 digest of the
canonical textual form of the freshly drawn version-4 UUID, and is a
deterministic function of that UUID; `generate_device_id` returns the
canonical textual form of a freshly drawn UUID. -/
theorem generators_spec (u : UUIDv4) :
    (generateMachineIdHash u).length = 64 ∧
    (∀ c ∈ (generateMachineIdHash u).data, isHexLower c = true) ∧
    generateMachineIdHash u = sha256Hex (strBytes (uuidCanon u)) ∧
    generate_device_id u = uuidCanon u ∧
    ∀ v : UUIDv4, uuidCanon v = uuidCanon u →
      generateMachineIdHash v = generateMachineIdHash u := by
  refine ⟨sha256Hex_length _, sha256Hex_chars _, rfl, rfl, ?_⟩
  intro v hv
  rw [generateMachineIdHash, generateMachineIdHash, hv]

theorem generators_spec_witness :
    (generateMachineIdHash uuidZero).length = 64 ∧
    generate_device_id uuidZero = uuidCanon uuidZero :=
  ⟨(generators_spec uuidZero).1, (generators_spec uuidZero).2.2.2.1⟩

/-- The embedded SHA-256 agrees with the standard test vector for
`"abc"`, checking the faithfulness of the digest used by the
telemetry machine-ID hash. -/
theorem sha256Hex_abc :
    sha256Hex (strBytes "abc")
      = "ba7816bf8f01cfea414140de5dae2223b00361a396177a9cb410ff61f20015ad" := by
  decide

theorem psFallback_nothing (pname : String) (ps : Option (List ProcInfo))
    (hf : fallbackNothing pname ps = true) :
    psFallback pname ps = Except.ok (false, []) := by
  cases ps with
  | none => rfl
  | some procs =>
    have hm : psMatchLoop pname procs [] = Except.ok [] := by
      rw [fallbackNothing] at hf
      cases he : psMatchLoop pname procs [] with
      | error e => rw [he] at hf; exact absurd hf (by simp)
      | ok pids =>
        cases pids with
        | nil => rfl
        | cons a l => rw [he] at hf; exact absurd hf (by simp)
    show (match psMatchLoop pname procs [] with
      | Except.error e => Except.error e
      | Except.ok pids =>
        if !(pids == []) then Except.ok (true, pids)
        else Except.ok (false, [])) = Except.ok (false, [])
    rw [hm]
    rfl

/-- On the runs where no handler is bypassed — the native probe
completed, the fallback was skipped or finished without hitting a
`None` name — the probe returns `(false, [])` whenever the native
mechanism was unavailable, failed or yielded nothing and the fallback
yielded nothing. -/
theorem check_process_running_default_of_nothing
    (os : OSys) (pname : String) (native : Option SubprocResult)
    (psutilProcs : Option (List ProcInfo))
    (hn : nativeNothing os pname native = true)
    (hf : fallbackNothing pname psutilProcs = true) :
    check_process_running os pname native psutilProcs =
      Except.ok (false, []) := by
  cases os with
  | darwin =>
    cases native with
    | none =>
      show psFallback pname psutilProcs = Except.ok (false, [])
      exact psFallback_nothing pname psutilProcs hf
    | some r =>
      rw [nativeNothing] at hn
      simp only [Bool.not_eq_true'] at hn
      simp [check_process_running, hn]
  | linux =>
    cases native with
    | none =>
      show psFallback pname psutilProcs = Except.ok (false, [])
      exact psFallback_nothing pname psutilProcs hf
    | some r =>
      rw [nativeNothing] at hn
      simp only [Bool.not_eq_true'] at hn
      simp [check_process_running, hn]
  | windows =>
    cases native with
    | none =>
      show psFallback pname psutilProcs = Except.ok (false, [])
      exact psFallback_nothing pname psutilProcs hf
    | some r =>
      rw [nativeNothing] at hn
      simp only [Bool.not_eq_true'] at hn
      simp [check_process_running, hn]
  | other =>
    cases native with
    | none => rfl
    | some r => rfl

/-- C5 fails on the code: with the native probe raising (diverted to
the fallback) and `psutil` listing a process whose prefetched name is
`None` — psutil's default `ad_value` for `AccessDenied` and zombie
processes — `None.lower()` raises an `AttributeError` that neither the
per-process `NoSuchProcess`/`AccessDenied` clause nor the
`ImportError` clause catches, so `check_process_running` propagates a
failure to its caller instead of returning `(false, [])`, even with a
genuinely matching process later in the listing. -/
theorem check_process_running_raises_on_none_name :
    check_process_running OSys.darwin "Qoder" none
      (some [⟨7, none⟩, ⟨8, some "Qoder"⟩]) = Except.error () := by
  rfl

theorem find_some_of_hasPath {fs : FS} {p : FPath}
    (h : fs.hasPath p = true) : ∃ nd, fs.find p = some nd := by
  rw [FS.hasPath] at h
  obtain ⟨ent, hm, hp⟩ := List.any_eq_true.1 h
  rw [FS.find]
  cases hf : List.find? (fun ent => ent.1 == p) fs.entries with
  | none =>
    rw [List.find?_eq_none] at hf
    exact absurd hp (hf ent hm)
  | some ent' => exact ⟨ent'.2, rfl⟩

theorem telemetry_guard_ok (u2 u3 : UUIDv4) (fs1 : FS)
    (hp : storageParses fs1 = true) :
    ∃ fs2, (if fs1.hasPath storagePath then
        match fs1.find storagePath with
        | some (Node.json obj) =>
          Except.ok (fs1.write storagePath
            (Node.json (setTelemetryKeys obj (generateMachineIdHash u2) (uuidCanon u3))))
        | _ => Except.error PyErr.parseError
      else Except.ok fs1 : Except PyErr FS) = Except.ok fs2 := by
  by_cases hh : fs1.hasPath storagePath = true
  · rw [if_pos hh]
    obtain ⟨nd, hnd⟩ := find_some_of_hasPath hh
    rw [hnd]
    rw [storageParses, hnd] at hp
    cases nd with
    | dir => exact absurd hp (by simp)
    | text s => exact absurd hp (by simp)
    | json obj => exact ⟨_, rfl⟩
  · rw [if_neg hh]
    exact ⟨fs1, rfl⟩

theorem performFullReset_cases
    (u1 u2 u3 : UUIDv4) (fails : FPath → Bool) (preserveChat : Bool) (fs : FS) :
    (fs.hasPath [] = false →
      performFullReset u1 u2 u3 fails preserveChat fs =
        Except.error PyErr.noDataDir) ∧
    (fs.hasPath [] = true →
      performFullReset u1 u2 u3 fails preserveChat fs =
        runSteps u1 u2 u3 fails (fullResetSteps preserveChat) fs) ∧
    (fs.hasPath [] = true → storageParses fs = true →
      ∃ fs', performFullReset u1 u2 u3 fails preserveChat fs =
        Except.ok fs') := by
  refine ⟨?_, ?_, ?_⟩
  · intro h
    rw [performFullReset, h]
    rfl
  · intro h
    rw [performFullReset, h]
    simp only [Bool.not_true, Bool.false_eq_true, if_false]
    cases preserveChat <;>
      simp only [fullResetSteps, List.cons_append, List.nil_append,
        if_true, Bool.false_eq_true, if_false] <;>
      simp only [runSteps, runStep] <;>
      split <;> rename_i heq <;> rw [heq]
  · intro h hp
    rw [performFullReset, h]
    simp only [Bool.not_true, Bool.false_eq_true, if_false]
    have hsp1 : storageParses (if fs.hasPath machineidPath then
        fs.write machineidPath (Node.text (uuidCanon u1)) else fs) = true := by
      by_cases hm : fs.hasPath machineidPath = true
      · rw [if_pos hm, storageParses, find_write_ne _ _ _ _ (by decide)]
        rw [storageParses] at hp
        exact hp
      · rw [if_neg hm]
        exact hp
    obtain ⟨fs2, hfs2⟩ := telemetry_guard_ok u2 u3 _ hsp1
    rw [hfs2]
    cases preserveChat
    · exact ⟨_, rfl⟩
    · exact ⟨_, rfl⟩

/-- C2: the full reset raises a terminal error before any step when the
data directory is absent; otherwise it runs exactly the step sequence
machine-ID rewrite, telemetry rewrite, cache profile, identity-file
profile (including the `Network` subdirectory's files), storage
profile, deep identity cleanup, and — only when chat is not preserved —
the chat-history purge; and it completes with a result (no abort) for
every removal-failure oracle, so failures inside the best-effort profile
steps never abort it. -/
theorem full_reset_order_and_error
    (u1 u2 u3 : UUIDv4) (fails : FPath → Bool) (preserveChat : Bool) (fs : FS) :
    (fs.hasPath [] = false →
      performFullReset u1 u2 u3 fails preserveChat fs =
        Except.error PyErr.noDataDir) ∧
    (fs.hasPath [] = true →
      performFullReset u1 u2 u3 fails preserveChat fs =
        runSteps u1 u2 u3 fails (fullResetSteps preserveChat) fs) ∧
    (fs.hasPath [] = true → storageParses fs = true →
      ∃ fs', performFullReset u1 u2 u3 fails preserveChat fs =
        Except.ok fs') :=
  performFullReset_cases u1 u2 u3 fails preserveChat fs

theorem full_reset_order_and_error_witness :
    performFullReset uuidZero uuidZero uuidOne noFail false fsRootOnly =
      runSteps uuidZero uuidZero uuidOne noFail (fullResetSteps false)
        fsRootOnly :=
  (full_reset_order_and_error uuidZero uuidZero uuidOne noFail false
    fsRootOnly).2.1 (by decide)

theorem find_none_of_not_hasPath {fs : FS} {p : FPath}
    (h : fs.hasPath p = false) : fs.find p = none := by
  rw [FS.hasPath, List.any_eq_false] at h
  rw [FS.find, List.find?_eq_none.2 (fun x hx => h x hx)]
  rfl

/-- C10: inside the full reset the machine-ID and telemetry sub-steps
are silently skipped when their target file is absent — the full reset
still completes successfully and continues with the cleanup profiles —
whereas the standalone operations surface the missing file (warning for
`machineid`, error for `storage.json`) and write nothing. -/
theorem full_reset_skips_missing_id_files
    (u1 u2 u3 : UUIDv4) (fails : FPath → Bool) (fs : FS)
    (hroot : fs.hasPath [] = true)
    (hmid : fs.hasPath machineidPath = false)
    (hstore : fs.hasPath storagePath = false) :
    (∃ fs', performFullReset u1 u2 u3 fails true fs = Except.ok fs') ∧
    reset_machine_id false u1 fs =
      (ResetMachineIdOutcome.noMachineIdFile, fs) ∧
    reset_telemetry false u2 u3 fs = (TelemetryOutcome.noStorageFile, fs) := by
  refine ⟨?_, ?_, ?_⟩
  · apply (performFullReset_cases u1 u2 u3 fails true fs).2.2 hroot
    rw [storageParses, find_none_of_not_hasPath hstore]
  · exact (reset_machine_id_cases u1 fs).2.1 hroot hmid
  · simp [reset_telemetry, hstore]

theorem full_reset_skips_missing_id_files_witness :
    (∃ fs', performFullReset uuidZero uuidZero uuidOne noFail true
        fsNoIdFiles = Except.ok fs') ∧
    reset_machine_id false uuidZero fsNoIdFiles =
      (ResetMachineIdOutcome.noMachineIdFile, fsNoIdFiles) ∧
    reset_telemetry false uuidZero uuidOne fsNoIdFiles =
      (TelemetryOutcome.noStorageFile, fsNoIdFiles) :=
  full_reset_skips_missing_id_files uuidZero uuidZero uuidOne noFail
    fsNoIdFiles (by decide) (by decide) (by decide)
